import Mathlib

/-!
Shallow embedding of `marketplace-ha/azure_had.py` (Azure cluster HA failover
daemon) and proofs about its reconciliation logic.

Python string primitives are embedded as structural functions over `List Char`
(the `data` field of `String`), so that every definition evaluates inside the
kernel:
* `x in s`            ↦ `strContains s x`
* `s.lower()`         ↦ `lowerStr s`
* `s.split('/')`      ↦ `pySplit s`
* `s.startswith(p)`   ↦ `startsWithB s p`
* `s[:-1]`            ↦ `dropLastStr s`
* `s.endswith('1')`   ↦ last-character test on `s.data`
-/

namespace AzureHad

/-- Embedding of Python `pat in s` (substring containment) on character data. -/
def containsSub : List Char → List Char → Bool
  | s, pat =>
    if pat.isPrefixOf s then true
    else
      match s with
      | [] => false
      | _ :: t => containsSub t pat

/-- Python `pat in s` for strings. -/
def strContains (s pat : String) : Bool :=
  containsSub s.data pat.data

/-- Python `s.lower()` (restricted to ASCII case mapping, as used on ARM ids). -/
def lowerStr (s : String) : String :=
  String.mk (s.data.map Char.toLower)

/-- Python `s.startswith(p)`. -/
def startsWithB (s p : String) : Bool :=
  p.data.isPrefixOf s.data

/-- Helper for `pySplit`: split a character list at a separator, Python
`str.split(sep)` semantics (`"".split(sep) == [""]`). -/
def splitCharList (sep : Char) : List Char → List (List Char)
  | [] => [[]]
  | c :: rest =>
    match splitCharList sep rest with
    | [] => [[]]
    | h :: t => if c == sep then [] :: h :: t else (c :: h) :: t

/-- Python `s.split('/')`. -/
def pySplit (s : String) : List String :=
  (splitCharList '/' s.data).map String.mk

/-- Python `s[:-1]`. -/
def dropLastStr (s : String) : String :=
  String.mk s.data.dropLast

/-! ### API version selection (azure_had.py lines 26-37 and 96-103) -/

/-- `ARM_VERSIONS['ha']` (azure_had.py lines 27-31), an ordered mapping. -/
def ARM_VERSIONS_ha : List (String × String) :=
  [("network/", "2024-05-01"), ("resources/", "2021-04-01"), ("compute/", "2019-07-01")]

/-- `ARM_VERSIONS['stack']` (azure_had.py lines 32-37), an ordered mapping. -/
def ARM_VERSIONS_stack : List (String × String) :=
  [("compute/", "2019-07-01"), ("network/", "2024-05-01"),
   ("network/virtualnetworks", "2024-05-01"), ("resources/", "2021-04-01")]

/-- `get_api_version` (azure_had.py lines 96-103): case-sensitive substring
tests on the resource id, independent of `templateName`. -/
def get_api_version (resource_id : String) : String :=
  if strContains resource_id "Microsoft.Network/" then "?api-version=2024-05-01"
  else if strContains resource_id "Microsoft.Compute/" then "?api-version=2019-07-01"
  else "?api-version=2021-04-01"

/-- Whether a mapping key applies to a resource id: the key names a provider
resource-type path, so it matches when `microsoft.<key>` occurs in the
lower-cased id. Used by the spec-side selector below. -/
def spec_key_matches (rid : String) (key : String) : Bool :=
  strContains (lowerStr rid) ("microsoft." ++ key)

/-- Longest-key entry of an association list (earlier entry wins ties). -/
def pickLongestKey : List (String × String) → Option (String × String)
  | [] => none
  | kv :: rest =>
    match pickLongestKey rest with
    | none => some kv
    | some kv' => if kv'.1.length > kv.1.length then some kv' else some kv

/-- Spec-side definition of the selector (spec sections 4.2 and 6): for a given
resource id, choose the version of the longest matching key of the active
profile's ordered mapping, defaulting to the generic resources version
`2021-04-01` when no key matches. Stated for comparison with
`get_api_version`, which is what the code actually runs. -/
def spec_api_version (profile : List (String × String)) (rid : String) : String :=
  match pickLongestKey (profile.filter (fun kv => spec_key_matches rid kv.1)) with
  | some kv => kv.2
  | none => "2021-04-01"

/-- A resource id the code itself builds: `conf['baseId'] +
'microsoft.compute/virtualmachines/' + hostname` (azure_had.py lines 289-291
and 614), then passed to `get_api_version` (line 615). -/
def ridLowercaseCompute : String :=
  "/subscriptions/sub1/resourcegroups/rg1/providers/microsoft.compute/virtualmachines/member1"

/-- C4 counterexample: on the lowercase compute id built by the code itself,
`get_api_version` falls through to the generic resources version, while the
spec's longest-prefix selector (ha profile, `compute/` key) picks the compute
version, so the two disagree. -/
theorem C4_counterexample_lowercase_compute :
    get_api_version ridLowercaseCompute = "?api-version=2021-04-01" ∧
    spec_api_version ARM_VERSIONS_ha ridLowercaseCompute = "2019-07-01" ∧
    get_api_version ridLowercaseCompute ≠
      "?api-version=" ++ spec_api_version ARM_VERSIONS_ha ridLowercaseCompute := by
  refine ⟨by decide, by decide, by decide⟩

theorem spec_key_matches_network (rid : String) :
    spec_key_matches rid "network/" = strContains (lowerStr rid) "microsoft.network/" := rfl

theorem spec_key_matches_compute (rid : String) :
    spec_key_matches rid "compute/" = strContains (lowerStr rid) "microsoft.compute/" := rfl

theorem spec_key_matches_vnets (rid : String) :
    spec_key_matches rid "network/virtualnetworks" =
      strContains (lowerStr rid) "microsoft.network/virtualnetworks" := rfl

theorem spec_key_matches_res (rid : String) :
    spec_key_matches rid "resources/" = strContains (lowerStr rid) "microsoft.resources/" := rfl

/-- C4 amended: `get_api_version` agrees with the spec's longest-prefix
selector — for both profiles, which coincide — exactly on resource ids whose
provider segment is canonically capitalised (`Microsoft.Network/...`,
`Microsoft.Compute/...`) and names at most one provider; lowercase ids fall to
the generic resources version (see the counterexample). -/
theorem C4_amended_api_version (rid : String)
    (hnet : strContains rid "Microsoft.Network/" = strContains (lowerStr rid) "microsoft.network/")
    (hcom : strContains rid "Microsoft.Compute/" = strContains (lowerStr rid) "microsoft.compute/")
    (hnc : ¬ (strContains (lowerStr rid) "microsoft.network/" = true ∧
              strContains (lowerStr rid) "microsoft.compute/" = true))
    (hnr : ¬ (strContains (lowerStr rid) "microsoft.network/" = true ∧
              strContains (lowerStr rid) "microsoft.resources/" = true))
    (hcr : ¬ (strContains (lowerStr rid) "microsoft.compute/" = true ∧
              strContains (lowerStr rid) "microsoft.resources/" = true))
    (hvn : strContains (lowerStr rid) "microsoft.network/virtualnetworks" = true →
           strContains (lowerStr rid) "microsoft.network/" = true) :
    get_api_version rid = "?api-version=" ++ spec_api_version ARM_VERSIONS_ha rid ∧
    get_api_version rid = "?api-version=" ++ spec_api_version ARM_VERSIONS_stack rid := by
  cases hn : strContains (lowerStr rid) "microsoft.network/" <;>
  cases hc : strContains (lowerStr rid) "microsoft.compute/" <;>
  cases hr : strContains (lowerStr rid) "microsoft.resources/" <;>
  cases hv : strContains (lowerStr rid) "microsoft.network/virtualnetworks" <;>
    simp_all [get_api_version, spec_api_version, ARM_VERSIONS_ha, ARM_VERSIONS_stack,
      pickLongestKey, List.filter, spec_key_matches_network, spec_key_matches_compute,
      spec_key_matches_vnets, spec_key_matches_res] <;> decide

/-- C4 amended witness: a canonical network id. -/
theorem C4_amended_api_version_witness :
    get_api_version
        "/subscriptions/sub1/resourcegroups/rg1/providers/Microsoft.Network/networkInterfaces/nic1" =
      "?api-version=" ++ spec_api_version ARM_VERSIONS_ha
        "/subscriptions/sub1/resourcegroups/rg1/providers/Microsoft.Network/networkInterfaces/nic1" :=
  (C4_amended_api_version _ (by decide) (by decide) (by decide) (by decide) (by decide)
    (by decide)).1

/-! ### Data model: ipConfigurations, NICs, VIP records -/

/-- The ipConfiguration `properties` fields the daemon reads or writes. -/
structure IpProps where
  privateIPAddress : String := ""
  privateIPAllocationMethod : String := ""
  subnetId : String := ""
  primary : Bool := false
  privateIPAddressVersion : String := ""
  applicationSecurityGroups : Option (List String) := none
  publicIPAddress : Option String := none
  loadBalancerInboundNatRules : List String := []
deriving DecidableEq

/-- One entry of a NIC's `ipConfigurations` list. -/
structure IpConf where
  name : String
  props : IpProps := {}
deriving DecidableEq

/-- A network interface as the daemon sees it. -/
structure Nic where
  id : String := ""
  name : String := ""
  provisioningState : String := "Succeeded"
  ipConfigurations : List IpConf := []
deriving DecidableEq

/-- A configured VIP record of `conf['clusterNetworkInterfaces'][cni]`
(`{name, privateIpAddr, publicIpObj}`); `publicIpObj = ""` means absent. -/
structure Vip where
  name : String
  privateIpAddr : String := ""
  publicIpObj : String := ""
deriving DecidableEq

/-- A load-balancer inbound NAT rule (`id`, `name`). -/
structure NatRule where
  id : String
  name : String
deriving DecidableEq

/-- A user-defined route's relevant `properties`
(`nextHopType`, `nextHopIpAddress`, `addressPrefix`). -/
structure Route where
  nextHopType : String
  nextHopIpAddress : Option String := none
  addrPrefix : String := ""
deriving DecidableEq

/-- The cloud writes a tick performs, in order. -/
inductive Action where
  | resetPut (rid : String)
  | putPeerNic (n : Nic)
  | putMyNic (n : Nic)
  | putRouteTable (routes : List Route)
deriving DecidableEq

/-! ### Provisioning gate and VIP reconciler (azure_had.py lines 358-369, 577-601, 604-791) -/

/-- `is_resource_ready` (azure_had.py lines 358-369): `Succeeded` is ready; on
`Failed` the object is self-PUT to reset; anything else is pending. Returns
the readiness flag together with any PUT the check itself issued. -/
def is_resource_ready (n : Nic) : Bool × List Action :=
  if n.provisioningState == "Succeeded" then (true, [])
  else if n.provisioningState == "Failed" then (false, [Action.resetPut n.id])
  else (false, [])

/-- `get_cluster_ip_index` (azure_had.py lines 577-582): index of the first
ipConfiguration whose name equals `name` case-insensitively, else `-1`. -/
def find_ip_index (name : String) : List IpConf → Int
  | [] => -1
  | c :: rest =>
    if lowerStr c.name == lowerStr name then 0
    else
      let r := find_ip_index name rest
      if r < 0 then -1 else r + 1

/-- `get_cluster_ip_index` on a NIC. -/
def get_cluster_ip_index (nic : Nic) (name : String) : Int :=
  find_ip_index name nic.ipConfigurations

/-- Loop body of `remove_attached_vips` (azure_had.py lines 592-599): for each
vip name in turn, look the name up and `pop` the found index. Carries the
`flag_put` accumulator and the last computed index (`peer_index`). -/
def remove_attached_vips_go : List String → Nic → Bool → Int → Nic × Bool × Int
  | [], peer, flag, last => (peer, flag, last)
  | n :: rest, peer, flag, _ =>
    let idx := get_cluster_ip_index peer n
    if 0 ≤ idx then
      remove_attached_vips_go rest
        { peer with ipConfigurations := peer.ipConfigurations.eraseIdx idx.toNat } true idx
    else
      remove_attached_vips_go rest peer flag idx

/-- `remove_attached_vips` (azure_had.py lines 585-601). -/
def remove_attached_vips (vip_names : List String) (peer : Nic) : Nic × Bool × Int :=
  remove_attached_vips_go vip_names peer false (-1)

/-- `pub_resource_id` computation (azure_had.py lines 732-742): full path when
the configured value contains a `/`, else composed from `baseId`. -/
def pub_resource_id (baseId : String) (vip : Vip) : String :=
  if vip.publicIpObj != "" then
    if strContains vip.publicIpObj "/" then vip.publicIpObj
    else baseId ++ "Microsoft.Network/publicIPAddresses/" ++ vip.publicIpObj
  else ""

/-- The ipConfiguration appended for a missing VIP (azure_had.py lines
746-776); the two Python branches differ only in the `publicIPAddress` key. -/
def new_vip_ipconf (baseId subnet_id : String) (asg : Option (List String)) (vip : Vip) :
    IpConf :=
  let pid := pub_resource_id baseId vip
  { name := vip.name,
    props := {
      privateIPAddress := vip.privateIpAddr,
      privateIPAllocationMethod := "Static",
      subnetId := subnet_id,
      primary := false,
      privateIPAddressVersion := "IPv4",
      applicationSecurityGroups := asg,
      publicIPAddress := if pid != "" then some pid else none } }

/-- The self-addition loop of `set_cluster_ips` (azure_had.py lines 731-784):
`for index, vip in enumerate(vips)`, appending each missing VIP, and issuing
the single NIC PUT (then `raise StopIteration`) only when `index ==
len(vips) - 1` — a test made inside the `my_index < 0` branch. Returns the
final NIC, the PUT actions, and whether `StopIteration` was raised. -/
def self_add_go (total : Nat) (baseId subnet_id : String) (asg : Option (List String)) :
    Nat → List Vip → Nic → Nic × List Action × Bool
  | _, [], myNic => (myNic, [], false)
  | index, vip :: rest, myNic =>
    let my_index := get_cluster_ip_index myNic vip.name
    if my_index < 0 then
      let myNic' := { myNic with
        ipConfigurations := myNic.ipConfigurations ++ [new_vip_ipconf baseId subnet_id asg vip] }
      if index == total - 1 then (myNic', [Action.putMyNic myNic'], true)
      else self_add_go total baseId subnet_id asg (index + 1) rest myNic'
    else
      self_add_go total baseId subnet_id asg (index + 1) rest myNic

/-- One interface's pass of `set_cluster_ips` (azure_had.py lines 692-790),
with the NICs already located by suffix and the cloud GETs resolved. Returns
`none` on an uncaught Python exception (empty `ipConfigurations[0]` access),
else the ordered PUT actions of the tick and whether the interface counted
towards `done` (i.e. no `StopIteration` was raised). -/
def interface_tick (baseId : String) (vips : List Vip) (peer_nic my_nic : Nic) :
    Option (List Action × Bool) :=
  let vip_names := vips.map (fun v => v.name)
  let (rdyP, aP) := is_resource_ready peer_nic
  if !rdyP then some (aP, false)
  else
    match remove_attached_vips vip_names peer_nic with
    | (peer', flag_put, _) =>
      if flag_put then some (aP ++ [Action.putPeerNic peer'], false)
      else
        let (rdyM, aM) := is_resource_ready my_nic
        if !rdyM then some (aP ++ aM, false)
        else
          match my_nic.ipConfigurations.head? with
          | none => none
          | some ipc0 =>
            let subnet_id := ipc0.props.subnetId
            let asg := ipc0.props.applicationSecurityGroups
            match self_add_go vips.length baseId subnet_id asg 0 vips my_nic with
            | (_, acts, stopped) => some (aP ++ aM ++ acts, !stopped)

/-! ### Lemmas about the peer cleanup pass -/

/-- Removal of the first case-insensitive match of `name`, the list-level
effect of one `get_cluster_ip_index` + `pop` step. -/
def removeFirstMatch (name : String) : List IpConf → List IpConf
  | [] => []
  | c :: rest =>
    if lowerStr c.name == lowerStr name then rest else c :: removeFirstMatch name rest

/-- Iterated first-match removal, one step per configured vip name. -/
def removeAllFirstMatches : List String → List IpConf → List IpConf
  | [], cfgs => cfgs
  | n :: rest, cfgs => removeAllFirstMatches rest (removeFirstMatch n cfgs)

theorem find_ip_index_cons_match (name : String) (c : IpConf) (rest : List IpConf)
    (hb : (lowerStr c.name == lowerStr name) = true) :
    find_ip_index name (c :: rest) = 0 := by
  simp [find_ip_index, hb]

theorem find_ip_index_cons_nomatch (name : String) (c : IpConf) (rest : List IpConf)
    (hb : (lowerStr c.name == lowerStr name) = false) :
    find_ip_index name (c :: rest) =
      (if find_ip_index name rest < 0 then -1 else find_ip_index name rest + 1) := by
  simp [find_ip_index, hb]

theorem find_ip_index_nonneg_iff (name : String) (l : List IpConf) :
    0 ≤ find_ip_index name l ↔ ∃ c ∈ l, lowerStr c.name = lowerStr name := by
  induction l with
  | nil => simp [find_ip_index]
  | cons c rest ih =>
    cases hb : (lowerStr c.name == lowerStr name) with
    | true =>
      rw [find_ip_index_cons_match name c rest hb]
      constructor
      · intro _; exact ⟨c, List.mem_cons_self _ _, by simpa using hb⟩
      · intro _; omega
    | false =>
      rw [find_ip_index_cons_nomatch name c rest hb]
      have hne : ¬ lowerStr c.name = lowerStr name := by simpa using hb
      by_cases hr : find_ip_index name rest < 0
      · rw [if_pos hr]
        constructor
        · intro h0; omega
        · rintro ⟨d, hd, hm⟩
          rcases List.mem_cons.mp hd with rfl | hd'
          · exact absurd hm hne
          · have := ih.mpr ⟨d, hd', hm⟩; omega
      · rw [if_neg hr]
        constructor
        · intro _
          rcases ih.mp (by omega) with ⟨d, hd, hm⟩
          exact ⟨d, List.mem_cons_of_mem _ hd, hm⟩
        · intro _; omega

theorem removeFirstMatch_of_no_match (name : String) (l : List IpConf)
    (h : find_ip_index name l < 0) : removeFirstMatch name l = l := by
  induction l with
  | nil => rfl
  | cons c rest ih =>
    cases hb : (lowerStr c.name == lowerStr name) with
    | true =>
      exfalso
      rw [find_ip_index_cons_match name c rest hb] at h
      omega
    | false =>
      rw [find_ip_index_cons_nomatch name c rest hb] at h
      have hrest : find_ip_index name rest < 0 := by
        by_cases hr : find_ip_index name rest < 0
        · exact hr
        · rw [if_neg hr] at h; omega
      simp [removeFirstMatch, hb, ih hrest]

theorem eraseIdx_find_eq_removeFirstMatch (name : String) (l : List IpConf)
    (h : 0 ≤ find_ip_index name l) :
    l.eraseIdx (find_ip_index name l).toNat = removeFirstMatch name l := by
  induction l with
  | nil => simp [find_ip_index] at h
  | cons c rest ih =>
    cases hb : (lowerStr c.name == lowerStr name) with
    | true =>
      rw [find_ip_index_cons_match name c rest hb]
      simp [removeFirstMatch, hb]
    | false =>
      rw [find_ip_index_cons_nomatch name c rest hb] at h ⊢
      by_cases hr : find_ip_index name rest < 0
      · rw [if_pos hr] at h; omega
      · have h0 : 0 ≤ find_ip_index name rest := by omega
        rw [if_neg hr]
        have htn : (find_ip_index name rest + 1).toNat = (find_ip_index name rest).toNat + 1 := by
          omega
        rw [htn, List.eraseIdx_cons_succ, ih h0]
        simp [removeFirstMatch, hb]

theorem remove_go_nic (names : List String) :
    ∀ (peer : Nic) (flag : Bool) (last : Int),
      (remove_attached_vips_go names peer flag last).1 =
        { peer with ipConfigurations := removeAllFirstMatches names peer.ipConfigurations } := by
  induction names with
  | nil => intro peer flag last; cases peer; rfl
  | cons n rest ih =>
    intro peer flag last
    by_cases h : 0 ≤ get_cluster_ip_index peer n
    · rw [remove_attached_vips_go, if_pos h, ih]
      have := eraseIdx_find_eq_removeFirstMatch n peer.ipConfigurations h
      simp [removeAllFirstMatches, get_cluster_ip_index] at *
      rw [this]
    · rw [remove_attached_vips_go, if_neg h, ih]
      have hneg : find_ip_index n peer.ipConfigurations < 0 := by
        simp only [get_cluster_ip_index] at h; omega
      rw [removeAllFirstMatches, removeFirstMatch_of_no_match n _ hneg]

theorem remove_go_flag (names : List String) :
    ∀ (peer : Nic) (flag : Bool) (last : Int),
      ((remove_attached_vips_go names peer flag last).2.1 = true ↔
        (flag = true ∨ ∃ n ∈ names, ∃ c ∈ peer.ipConfigurations,
          lowerStr c.name = lowerStr n)) := by
  induction names with
  | nil => intro peer flag last; simp [remove_attached_vips_go]
  | cons n rest ih =>
    intro peer flag last
    by_cases h : 0 ≤ get_cluster_ip_index peer n
    · rw [remove_attached_vips_go, if_pos h, ih]
      have hmatch : ∃ c ∈ peer.ipConfigurations, lowerStr c.name = lowerStr n :=
        (find_ip_index_nonneg_iff n peer.ipConfigurations).mp h
      simp only [eq_self_iff_true, true_or, true_iff]
      exact Or.inr ⟨n, List.mem_cons_self _ _, hmatch⟩
    · rw [remove_attached_vips_go, if_neg h, ih]
      have hnone : ¬ ∃ c ∈ peer.ipConfigurations, lowerStr c.name = lowerStr n := by
        intro hx
        exact h ((find_ip_index_nonneg_iff n peer.ipConfigurations).mpr hx)
      constructor
      · rintro (hf | ⟨m, hm, hc⟩)
        · exact Or.inl hf
        · exact Or.inr ⟨m, List.mem_cons_of_mem _ hm, hc⟩
      · rintro (hf | ⟨m, hm, hc⟩)
        · exact Or.inl hf
        · rcases List.mem_cons.mp hm with rfl | hm'
          · exact absurd hc hnone
          · exact Or.inr ⟨m, hm', hc⟩

/-- C1: within one `set_cluster_ips` tick for an interface whose peer NIC is
ready, if any configured VIP name is present (case-insensitively) on the peer
NIC then the tick performs exactly the peer-NIC removal PUT and no self-add
PUT; and a self-add PUT can only happen in a tick in which no configured VIP
name was found on the peer NIC. -/
theorem C1_peer_remove_before_self_add (baseId : String) (vips : List Vip) (peer my : Nic)
    (hp : peer.provisioningState = "Succeeded") :
    ((∃ v ∈ vips, ∃ c ∈ peer.ipConfigurations, lowerStr c.name = lowerStr v.name) →
      ∃ p, interface_tick baseId vips peer my = some ([Action.putPeerNic p], false)) ∧
    (∀ acts d n, interface_tick baseId vips peer my = some (acts, d) →
      Action.putMyNic n ∈ acts →
      ¬ ∃ v ∈ vips, ∃ c ∈ peer.ipConfigurations, lowerStr c.name = lowerStr v.name) := by
  have hready : is_resource_ready peer = (true, []) := by
    simp [is_resource_ready, hp]
  constructor
  · intro hex
    rcases hrm : remove_attached_vips (vips.map fun v => v.name) peer with ⟨p', f', l'⟩
    have hgo : (remove_attached_vips_go (vips.map fun v => v.name) peer false (-1)).2.1
        = true := by
      rw [remove_go_flag]
      right
      rcases hex with ⟨v, hv, hc⟩
      exact ⟨v.name, List.mem_map_of_mem _ hv, hc⟩
    rw [remove_attached_vips] at hrm
    rw [hrm] at hgo
    simp only at hgo
    refine ⟨p', ?_⟩
    simp [interface_tick, hready, remove_attached_vips, hrm, hgo]
  · intro acts d n htick hmem hex
    rcases hrm : remove_attached_vips (vips.map fun v => v.name) peer with ⟨p', f', l'⟩
    have hgo : (remove_attached_vips_go (vips.map fun v => v.name) peer false (-1)).2.1
        = true := by
      rw [remove_go_flag]
      right
      rcases hex with ⟨v, hv, hc⟩
      exact ⟨v.name, List.mem_map_of_mem _ hv, hc⟩
    rw [remove_attached_vips] at hrm
    rw [hrm] at hgo
    simp only at hgo
    simp [interface_tick, hready, remove_attached_vips, hrm, hgo] at htick
    rcases htick with ⟨hacts, -⟩
    rw [← hacts] at hmem
    simp at hmem

/-- Concrete single-VIP configuration (spec section 8, scenario 1). -/
def vipsW1 : List Vip := [{ name := "cluster-vip", privateIpAddr := "10.0.0.10" }]

/-- Peer NIC still holding the VIP (case differs, to exercise the
case-insensitive match). -/
def peerW1 : Nic :=
  { id := "peer-eth0", name := "member2-eth0",
    ipConfigurations := [{ name := "ipconfig1" }, { name := "CLUSTER-VIP" }] }

/-- My NIC, without the VIP. -/
def myW1 : Nic :=
  { id := "my-eth0", name := "member1-eth0",
    ipConfigurations := [{ name := "ipconfig1",
                           props := { subnetId := "subnet1", primary := true } }] }

/-- C1 witness: the theorem applied to the concrete failover scenario. -/
theorem C1_peer_remove_before_self_add_witness :
    peerW1.provisioningState = "Succeeded" ∧
    (((∃ v ∈ vipsW1, ∃ c ∈ peerW1.ipConfigurations, lowerStr c.name = lowerStr v.name) →
      ∃ p, interface_tick "" vipsW1 peerW1 myW1 = some ([Action.putPeerNic p], false)) ∧
    (∀ acts d n, interface_tick "" vipsW1 peerW1 myW1 = some (acts, d) →
      Action.putMyNic n ∈ acts →
      ¬ ∃ v ∈ vipsW1, ∃ c ∈ peerW1.ipConfigurations, lowerStr c.name = lowerStr v.name)) :=
  ⟨rfl, C1_peer_remove_before_self_add "" vipsW1 peerW1 myW1 rfl⟩

/-- C2 failing input: two configured VIPs, the first missing from my NIC, the
second (the last of the list) already present; peer NIC holds neither. -/
def vipsC2 : List Vip :=
  [{ name := "vip-a", privateIpAddr := "10.0.0.10" },
   { name := "vip-b", privateIpAddr := "10.0.0.11" }]

/-- My NIC for the C2 failing input: has `vip-b` but not `vip-a`. -/
def myC2 : Nic :=
  { id := "my-eth0", name := "member1-eth0",
    ipConfigurations := [{ name := "ipconfig1",
                           props := { subnetId := "subnet1", primary := true } },
                         { name := "vip-b",
                           props := { privateIPAddress := "10.0.0.11" } }] }

/-- Peer NIC for the C2 failing input: holds no configured VIP. -/
def peerC2 : Nic :=
  { id := "peer-eth0", name := "member2-eth0",
    ipConfigurations := [{ name := "ipconfig1" }] }

/-- C2 evaluation at the failing input: `vip-a` is missing from my NIC
(`get_cluster_ip_index` is `-1`), yet the tick performs no PUT at all — the
`index == len(vips) - 1` test sits inside the `my_index < 0` branch, so when
the last VIP is already present the appended `vip-a` is never written — and
the interface still counts towards `done`. -/
theorem C2_code_bug_no_put_when_last_vip_present :
    get_cluster_ip_index myC2 "vip-a" = -1 ∧
    interface_tick "" vipsC2 peerC2 myC2 = some ([], true) := by
  exact ⟨by decide, by decide⟩

/-- Peer NIC with two ipConfigurations of the same name. -/
def peerC8 : Nic :=
  { id := "peer-eth0", name := "member2-eth0",
    ipConfigurations := [{ name := "vip1" }, { name := "vip1" }] }

/-- C8 counterexample: with two peer ipConfigurations named `vip1` and the
single configured name `vip1`, the cleanup pass sets `flag_put` (so the peer
PUT is issued) but removes only the first match — a `vip1` entry survives in
the NIC body that is PUT. -/
theorem C8_counterexample_duplicate_names :
    (remove_attached_vips ["vip1"] peerC8).2.1 = true ∧
    ((remove_attached_vips ["vip1"] peerC8).1.ipConfigurations.filter
        (fun c => lowerStr c.name == lowerStr "vip1")).length = 1 := by
  exact ⟨by decide, by decide⟩

theorem removeFirstMatch_sublist (name : String) (l : List IpConf) :
    (removeFirstMatch name l).Sublist l := by
  induction l with
  | nil => simp [removeFirstMatch]
  | cons c rest ih =>
    by_cases hb : (lowerStr c.name == lowerStr name) = true
    · simp [removeFirstMatch, hb]
    · rw [removeFirstMatch, if_neg hb]
      exact ih.cons₂ c

theorem removeAllFirstMatches_sublist (names : List String) :
    ∀ l : List IpConf, (removeAllFirstMatches names l).Sublist l := by
  induction names with
  | nil => intro l; simp [removeAllFirstMatches]
  | cons n rest ih =>
    intro l
    exact (ih (removeFirstMatch n l)).trans (removeFirstMatch_sublist n l)

theorem removeFirstMatch_no_match (name : String) (l : List IpConf)
    (h : (l.map (fun c => lowerStr c.name)).Nodup) :
    ∀ c ∈ removeFirstMatch name l, lowerStr c.name ≠ lowerStr name := by
  induction l with
  | nil => simp [removeFirstMatch]
  | cons c rest ih =>
    simp only [List.map_cons, List.nodup_cons] at h
    obtain ⟨hnotin, hrest⟩ := h
    by_cases hb : (lowerStr c.name == lowerStr name) = true
    · rw [removeFirstMatch, if_pos hb]
      intro d hd hcontra
      have hceq : lowerStr c.name = lowerStr name := by simpa using hb
      exact hnotin (by
        rw [hceq, ← hcontra]
        exact List.mem_map_of_mem _ hd)
    · rw [removeFirstMatch, if_neg hb]
      intro d hd
      rcases List.mem_cons.mp hd with rfl | hd'
      · simpa using hb
      · exact ih hrest d hd'

theorem removeFirstMatch_nodup (name : String) (l : List IpConf)
    (h : (l.map (fun c => lowerStr c.name)).Nodup) :
    ((removeFirstMatch name l).map (fun c => lowerStr c.name)).Nodup :=
  h.sublist ((removeFirstMatch_sublist name l).map _)

theorem removeAllFirstMatches_no_match (names : List String) :
    ∀ l : List IpConf, (l.map (fun c => lowerStr c.name)).Nodup →
      ∀ c ∈ removeAllFirstMatches names l, ∀ n ∈ names, lowerStr c.name ≠ lowerStr n := by
  induction names with
  | nil => simp
  | cons n rest ih =>
    intro l h c hc m hm
    rcases List.mem_cons.mp hm with rfl | hm'
    · have hsub : c ∈ removeFirstMatch m l :=
        (removeAllFirstMatches_sublist rest (removeFirstMatch m l)).mem hc
      exact removeFirstMatch_no_match m l h c hsub
    · exact ih (removeFirstMatch n l) (removeFirstMatch_nodup n l h) c hc m hm'

/-- C8 amended: the peer cleanup pass removes, for each configured vip name in
turn, the FIRST case-insensitive match among the peer's ipConfigurations (one
`pop` per name, not all matches); when the peer NIC's ipConfiguration names
are case-insensitively distinct — as Azure guarantees — this removes every
match, so no ipConfiguration matching a configured name survives into the
peer NIC that is PUT. -/
theorem C8_amended_first_match_per_name (names : List String) (peer : Nic)
    (h : (peer.ipConfigurations.map (fun c => lowerStr c.name)).Nodup) :
    (remove_attached_vips names peer).1 =
      { peer with ipConfigurations := removeAllFirstMatches names peer.ipConfigurations } ∧
    ∀ c ∈ (remove_attached_vips names peer).1.ipConfigurations,
      ∀ n ∈ names, lowerStr c.name ≠ lowerStr n := by
  have hnic := remove_go_nic names peer false (-1)
  refine ⟨hnic, ?_⟩
  intro c hc n hn
  rw [remove_attached_vips, hnic] at hc
  exact removeAllFirstMatches_no_match names peer.ipConfigurations h c hc n hn

/-- C8 amended witness: two distinct vip names, both present on the peer, both
removed. -/
theorem C8_amended_first_match_per_name_witness :
    ((peerW1.ipConfigurations.map (fun c => lowerStr c.name)).Nodup) ∧
    ((remove_attached_vips ["cluster-vip"] peerW1).1 =
      { peerW1 with
        ipConfigurations := removeAllFirstMatches ["cluster-vip"] peerW1.ipConfigurations } ∧
    ∀ c ∈ (remove_attached_vips ["cluster-vip"] peerW1).1.ipConfigurations,
      ∀ n ∈ ["cluster-vip"], lowerStr c.name ≠ lowerStr n) :=
  ⟨by decide, C8_amended_first_match_per_name ["cluster-vip"] peerW1 (by decide)⟩

/-! ### Edge-zone aware safe PUT (azure_had.py lines 106-202) -/

/-- An `extendedLocation`-style object (`name`, `type`). -/
structure ExtLoc where
  name : String
  ty : String
deriving DecidableEq

/-- The request body as `safe_arm_put` inspects it: optional
`extendedLocation`, optional `properties.vnetExtendedLocation`, and the rest
of the payload abstracted. -/
structure Body where
  extendedLocation : Option ExtLoc := none
  vnetExtendedLocation : Option ExtLoc := none
  payload : String := ""
deriving DecidableEq

/-- Outcome of one `azure.arm('PUT', ...)` call: either a response (headers
code, parsed data) or a raised `rest.RequestException` (HTTP code, message). -/
inductive ArmOutcome where
  | resp (code : Option String) (data : Body)
  | exn (code : Nat) (msg : String)
deriving DecidableEq

/-- What `safe_arm_put` hands back to its caller: a returned value (`none`
embeds Python `None`) or a propagated exception. -/
inductive SafeResult where
  | ok (b : Option Body)
  | raised (code : Nat) (msg : String)
deriving DecidableEq

/-- Log-record severities emitted along the way. -/
inductive LogLevel where
  | debug
  | info
  | warning
  | error
deriving DecidableEq

/-- `'InvalidExtendedLocation' in str(e)`. -/
def hasIEL (msg : String) : Bool :=
  strContains msg "InvalidExtendedLocation"

/-- Extended-zone context detection (azure_had.py lines 117-131): prefer
`body.extendedLocation`, else synthesize `{name, type}` from
`properties.vnetExtendedLocation`. -/
def extended_zone_context (b : Body) : Option ExtLoc :=
  match b.extendedLocation with
  | some e => some e
  | none =>
    match b.vnetExtendedLocation with
    | some v => some { name := v.name, ty := v.ty }
    | none => none

/-- The standard ARM PUT path of `safe_arm_put` (azure_had.py lines 171-202),
including the outer exception handler: a 200 response returns the response
data; any other response code logs an error and returns `None`; a 409
exception mentioning `InvalidExtendedLocation` logs warnings and returns the
request body unchanged; any other exception is re-raised. -/
def std_put_path (body : Body) (std : ArmOutcome) : SafeResult × List LogLevel :=
  match std with
  | .resp code d =>
    if code == some "200" then (.ok (some d), [.info])
    else (.ok none, [.error])
  | .exn code msg =>
    if code == 409 && hasIEL msg then
      (.ok (some body), [.warning, .info, .info, .info, .warning, .warning])
    else (.raised code msg, [.error])

/-- `safe_arm_put` (azure_had.py lines 106-202) as a function of the request
body and of the outcomes of the (at most two) ARM PUT calls it can make: the
enhanced extended-zone attempt (made only when a context is detected) and the
standard attempt. The serialized `body_json` / `body_json_enhanced` strings
only affect what is sent on the wire, which the `ArmOutcome` oracle already
captures. -/
def safe_arm_put (body : Body) (enhanced std : ArmOutcome) : SafeResult × List LogLevel :=
  match extended_zone_context body with
  | none => std_put_path body std
  | some _ =>
    match enhanced with
    | .resp code d =>
      if code == some "200" then (.ok (some d), [.info, .info, .debug, .info])
      else
        match std_put_path body std with
        | (r, l) => (r, [.info, .info, .debug, .warning] ++ l)
    | .exn code msg =>
      if code == 409 && hasIEL msg then
        match std_put_path body std with
        | (r, l) => (r, [.info, .info, .debug, .warning] ++ l)
      else (.raised code msg, [.info, .info, .debug, .error])

/-- Whether control reaches the standard PUT: always when no extended-zone
context is detected, otherwise only when the enhanced attempt ends in a
non-200 response or a 409 `InvalidExtendedLocation` exception. -/
def falls_through (body : Body) (enhanced : ArmOutcome) : Bool :=
  match extended_zone_context body with
  | none => true
  | some _ =>
    match enhanced with
    | .resp code _ => !(code == some "200")
    | .exn code msg => code == 409 && hasIEL msg

/-- C5: when the (standard) PUT inside `safe_arm_put` fails with an HTTP 409
exception whose message contains `InvalidExtendedLocation`, `safe_arm_put`
logs a warning and returns the request body unchanged, as if the PUT had
succeeded. -/
theorem C5_edge_zone_fallback_returns_body (body : Body) (enhanced : ArmOutcome)
    (msg : String) (hm : hasIEL msg = true)
    (hft : falls_through body enhanced = true) :
    (safe_arm_put body enhanced (.exn 409 msg)).1 = .ok (some body) ∧
    LogLevel.warning ∈ (safe_arm_put body enhanced (.exn 409 msg)).2 := by
  have hstd : std_put_path body (.exn 409 msg) =
      (.ok (some body), [.warning, .info, .info, .info, .warning, .warning]) := by
    simp [std_put_path, hm]
  unfold safe_arm_put falls_through at *
  cases hctx : extended_zone_context body with
  | none => simp [hctx, hstd]
  | some e =>
    cases enhanced with
    | resp code d => simp_all [hstd]
    | exn c m => simp_all [hstd]

/-- A body with no extended-zone markers. -/
def plainBody : Body := {}

/-- C5 witness: a concrete 409 `InvalidExtendedLocation` failure on a plain
body. -/
theorem C5_edge_zone_fallback_returns_body_witness :
    hasIEL "Conflict: InvalidExtendedLocation for resource" = true ∧
    falls_through plainBody (.resp none plainBody) = true ∧
    ((safe_arm_put plainBody (.resp none plainBody)
        (.exn 409 "Conflict: InvalidExtendedLocation for resource")).1 =
      .ok (some plainBody) ∧
    LogLevel.warning ∈ (safe_arm_put plainBody (.resp none plainBody)
        (.exn 409 "Conflict: InvalidExtendedLocation for resource")).2) :=
  ⟨by decide, by decide,
    C5_edge_zone_fallback_returns_body plainBody (.resp none plainBody)
      "Conflict: InvalidExtendedLocation for resource" (by decide) (by decide)⟩

/-- Whether `safe_arm_put` propagated an exception. -/
def isRaised : SafeResult → Bool
  | .raised _ _ => true
  | .ok _ => false

/-- C6 counterexample: a standard PUT that yields a (non-exception) response
with code 500 — an outcome that is neither a 200 response nor the 409
`InvalidExtendedLocation` conflict — makes `safe_arm_put` return Python
`None` instead of raising, so the error is not surfaced as a raise. -/
theorem C6_counterexample_non200_response :
    (safe_arm_put plainBody (.resp none plainBody) (.resp (some "500") plainBody)).1 =
      .ok none ∧
    isRaised (safe_arm_put plainBody (.resp none plainBody)
      (.resp (some "500") plainBody)).1 = false ∧
    ((some "500" : Option String) == some "200") = false := by
  exact ⟨by decide, by decide, by decide⟩

/-- C6 amended: exceptions other than the 409 `InvalidExtendedLocation`
conflict are re-raised to the caller (both from the standard PUT and from the
enhanced extended-zone attempt); a non-exception response with a code other
than 200, however, is not raised: `safe_arm_put` logs an error and returns
`None` — still neither the response data nor the request body. -/
theorem C6_amended_error_surfacing (body : Body) (enhanced std : ArmOutcome) :
    (∀ c m, falls_through body enhanced = true → std = ArmOutcome.exn c m →
      (c == 409 && hasIEL m) = false →
      (safe_arm_put body enhanced std).1 = .raised c m) ∧
    (∀ c d, falls_through body enhanced = true → std = ArmOutcome.resp c d →
      (c == some "200") = false →
      (safe_arm_put body enhanced std).1 = .ok none ∧
      LogLevel.error ∈ (safe_arm_put body enhanced std).2) ∧
    (∀ c m, enhanced = ArmOutcome.exn c m → (c == 409 && hasIEL m) = false →
      extended_zone_context body ≠ none →
      (safe_arm_put body enhanced std).1 = .raised c m) := by
  refine ⟨?_, ?_, ?_⟩
  · rintro c m hft rfl hniel
    have hcond : ¬ (c = 409 ∧ hasIEL m = true) := by
      rintro ⟨rfl, h2⟩
      simp [h2] at hniel
    unfold safe_arm_put falls_through at *
    cases hctx : extended_zone_context body with
    | none => simp [std_put_path, hcond]
    | some e =>
      cases enhanced with
      | resp code d =>
        simp_all [std_put_path]
        have hcond2 : ¬ (c = 409 ∧ hasIEL m = true) := by
          rintro ⟨h1, h2⟩
          rw [hniel h1] at h2
          exact Bool.noConfusion h2
        rw [if_neg hcond2]
      | exn c' m' =>
        simp_all [std_put_path]
        have hcond2 : ¬ (c = 409 ∧ hasIEL m = true) := by
          rintro ⟨h1, h2⟩
          rw [hniel h1] at h2
          exact Bool.noConfusion h2
        rw [if_neg hcond2]
  · rintro c d hft rfl h200
    unfold safe_arm_put falls_through at *
    cases hctx : extended_zone_context body with
    | none => simp [std_put_path, h200]
    | some e =>
      cases enhanced with
      | resp code dd => simp_all [std_put_path, h200]
      | exn c' m' => simp_all [std_put_path, h200]
  · rintro c m rfl hniel hctx
    unfold safe_arm_put at *
    cases hc : extended_zone_context body with
    | none => exact absurd hc hctx
    | some e => simp [hniel]

/-- C6 amended witness: a plain body, a re-raised 500 exception, and a 500
response mapped to `None`. -/
theorem C6_amended_error_surfacing_witness :
    (safe_arm_put plainBody (.resp none plainBody) (.exn 500 "ServerError")).1 =
      .raised 500 "ServerError" ∧
    (safe_arm_put plainBody (.resp none plainBody) (.resp (some "429") plainBody)).1 =
      .ok none :=
  ⟨(C6_amended_error_surfacing plainBody (.resp none plainBody)
      (.exn 500 "ServerError")).1 500 "ServerError" (by decide) rfl (by decide),
   ((C6_amended_error_surfacing plainBody (.resp none plainBody)
      (.resp (some "429") plainBody)).2.1 (some "429") plainBody (by decide) rfl
      (by decide)).1⟩

/-! ### Route-table reconciler (azure_had.py lines 834-880) -/

/-- The skip test of `set_routing_tables` (azure_had.py lines 855-858):
`cidr = addressPrefix.split('/')`, skip when `len(cidr) == 2 and cidr[0] in
addresses.peer and cidr[1] == '32'` — note the membership test accepts ANY
peer address, not specifically the route's own next hop. -/
def routeSkip32 (peer : List String) (pfx : String) : Bool :=
  match pySplit pfx with
  | [a, b] => peer.contains a && b == "32"
  | _ => false

/-- One route of the loop body of `set_routing_tables` (azure_had.py lines
849-866). Returns the (possibly rewritten) route and whether it was changed;
`none` embeds the uncaught `IndexError` when `addresses.me` is shorter than
`addresses.peer`. -/
def process_route (me peer : List String) (r : Route) : Option (Route × Bool) :=
  if r.nextHopType != "VirtualAppliance" then some (r, false)
  else
    match r.nextHopIpAddress with
    | none => some (r, false)
    | some nh =>
      if !(peer.contains nh) then some (r, false)
      else if routeSkip32 peer r.addrPrefix then some (r, false)
      else
        match me.get? (List.indexOf nh peer) with
        | none => none
        | some a => some ({ r with nextHopIpAddress := some a }, true)

/-- All routes of one route table, threading the `dirty` flag. -/
def process_routes (me peer : List String) : List Route → Option (List Route × Bool)
  | [] => some ([], false)
  | r :: rest =>
    match process_route me peer r with
    | none => none
    | some (r', ch) =>
      match process_routes me peer rest with
      | none => none
      | some (rest', dirty) => some (r' :: rest', ch || dirty)

/-- One route table's tick (azure_had.py lines 848-874): rewrite the routes
and PUT the table exactly when some route changed. -/
def route_table_tick (me peer : List String) (rt : List Route) :
    Option (List Route × List Action) :=
  match process_routes me peer rt with
  | none => none
  | some (rs, dirty) => some (rs, if dirty then [Action.putRouteTable rs] else [])

/-- C7 counterexample route: next hop is the first peer address, but the
`addressPrefix` is the SECOND peer address's /32. -/
def routeC7 : Route :=
  { nextHopType := "VirtualAppliance", nextHopIpAddress := some "10.0.1.5",
    addrPrefix := "10.0.1.6/32" }

/-- C7 counterexample: the route's next hop `10.0.1.5` is a peer address and
its `addressPrefix` is NOT `10.0.1.5/32`, yet the code leaves it unchanged,
because the skip test accepts the /32 of any peer address (`10.0.1.6/32`).
This refutes the claimed "if and only if its addressPrefix equals that same
peer address followed by /32". -/
theorem C7_counterexample_other_peer_32 :
    process_route ["10.0.1.4", "10.0.1.7"] ["10.0.1.5", "10.0.1.6"] routeC7 =
      some (routeC7, false) ∧
    routeC7.nextHopIpAddress = some "10.0.1.5" ∧
    ("10.0.1.5" : String) ∈ ["10.0.1.5", "10.0.1.6"] ∧
    routeC7.addrPrefix ≠ "10.0.1.5" ++ "/32" := by
  exact ⟨by decide, by decide, by decide, by decide⟩

theorem routeSkip32_iff (peer : List String) (pfx : String) :
    routeSkip32 peer pfx = true ↔ ∃ q ∈ peer, pySplit pfx = [q, "32"] := by
  unfold routeSkip32
  cases hs : pySplit pfx with
  | nil => simp
  | cons a t =>
    cases t with
    | nil => simp
    | cons b t2 =>
      cases t2 with
      | nil =>
        simp only [Bool.and_eq_true, beq_iff_eq]
        constructor
        · rintro ⟨h1, rfl⟩
          exact ⟨a, by simpa using h1, rfl⟩
        · rintro ⟨q, hq, heq⟩
          injection heq with ha hrest
          injection hrest with hb htail
          subst ha; subst hb
          exact ⟨by simpa using hq, rfl⟩
      | cons c t3 => simp

theorem process_routes_dirty_iff (me peer : List String) :
    ∀ rt rs dirty, process_routes me peer rt = some (rs, dirty) →
      (dirty = true ↔ ∃ r ∈ rt, ∃ r', process_route me peer r = some (r', true)) := by
  intro rt
  induction rt with
  | nil =>
    intro rs dirty h
    simp only [process_routes] at h
    injection h with h'
    injection h' with h1 h2
    subst h2
    simp
  | cons r rest ih =>
    intro rs dirty h
    simp only [process_routes] at h
    cases hpr : process_route me peer r with
    | none => rw [hpr] at h; exact absurd h (by simp)
    | some pc =>
      rcases pc with ⟨r', ch⟩
      rw [hpr] at h
      cases hprs : process_routes me peer rest with
      | none => rw [hprs] at h; exact absurd h (by simp)
      | some pd =>
        rcases pd with ⟨rest', d'⟩
        rw [hprs] at h
        simp only at h
        injection h with h'
        injection h' with h1 h2
        subst h2
        rw [Bool.or_eq_true]
        constructor
        · rintro (hch | hd)
          · exact ⟨r, List.mem_cons_self _ _, r', by rw [hpr, hch]⟩
          · rcases (ih _ _ hprs).mp hd with ⟨rr, hrr, rr', hrr'⟩
            exact ⟨rr, List.mem_cons_of_mem _ hrr, rr', hrr'⟩
        · rintro ⟨rr, hrr, rr', hrr'⟩
          rcases List.mem_cons.mp hrr with rfl | hmem
          · rw [hpr] at hrr'
            injection hrr' with hx
            injection hx with hx1 hx2
            exact Or.inl hx2
          · exact Or.inr ((ih _ _ hprs).mpr ⟨rr, hmem, rr', hrr'⟩)

theorem process_route_not_va (me peer : List String) (r : Route)
    (ht : r.nextHopType ≠ "VirtualAppliance") :
    process_route me peer r = some (r, false) := by
  have htb : (r.nextHopType != "VirtualAppliance") = true := by simpa using ht
  simp [process_route, htb]

theorem process_route_no_nh (me peer : List String) (r : Route)
    (ht : r.nextHopType = "VirtualAppliance") (hnh : r.nextHopIpAddress = none) :
    process_route me peer r = some (r, false) := by
  have htb : (r.nextHopType != "VirtualAppliance") = false := by simp [ht]
  simp [process_route, htb, hnh]

theorem process_route_not_peer (me peer : List String) (r : Route) (nh : String)
    (ht : r.nextHopType = "VirtualAppliance") (hnh : r.nextHopIpAddress = some nh)
    (hmem : nh ∉ peer) :
    process_route me peer r = some (r, false) := by
  have htb : (r.nextHopType != "VirtualAppliance") = false := by simp [ht]
  simp [process_route, htb, hnh, hmem]

theorem process_route_skip (me peer : List String) (r : Route) (nh : String)
    (ht : r.nextHopType = "VirtualAppliance") (hnh : r.nextHopIpAddress = some nh)
    (hmem : nh ∈ peer) (hskip : routeSkip32 peer r.addrPrefix = true) :
    process_route me peer r = some (r, false) := by
  have htb : (r.nextHopType != "VirtualAppliance") = false := by simp [ht]
  simp [process_route, htb, hnh, hmem, hskip]

theorem process_route_rewrite (me peer : List String) (r : Route) (nh : String)
    (ht : r.nextHopType = "VirtualAppliance") (hnh : r.nextHopIpAddress = some nh)
    (hmem : nh ∈ peer) (hskip : routeSkip32 peer r.addrPrefix = false)
    (hlen : peer.length ≤ me.length) :
    process_route me peer r =
      some ({ r with nextHopIpAddress := me.get? (List.indexOf nh peer) }, true) ∧
    (me.get? (List.indexOf nh peer)).isSome = true := by
  have htb : (r.nextHopType != "VirtualAppliance") = false := by simp [ht]
  have hidx : List.indexOf nh peer < me.length :=
    lt_of_lt_of_le (List.indexOf_lt_length.mpr hmem) hlen
  have hget : me.get? (List.indexOf nh peer) =
      some (me.get ⟨List.indexOf nh peer, hidx⟩) :=
    List.get?_eq_get hidx
  have hget2 : me[List.indexOf nh peer]? = some (me.get ⟨List.indexOf nh peer, hidx⟩) := by
    rw [← List.get?_eq_getElem?]
    exact hget
  refine ⟨?_, by rw [hget]; rfl⟩
  simp [process_route, htb, hnh, hmem, hskip, hget, hget2]

/-- C7 amended: a `VirtualAppliance` route whose next hop lies in
`addresses.peer` is left unchanged exactly when its `addressPrefix` splits as
`q/32` for SOME `q ∈ addresses.peer` (not necessarily the route's own next
hop); otherwise its next hop is rewritten to the `addresses.me` entry at the
next hop's index in `addresses.peer`; and the route table is PUT exactly when
some route changed. -/
theorem C7_amended_route_rewrite (me peer : List String)
    (hlen : peer.length ≤ me.length) :
    (∀ r : Route, ∃ r' ch, process_route me peer r = some (r', ch) ∧
      ((ch = false) ↔ (r.nextHopType ≠ "VirtualAppliance" ∨
        (∀ nh, r.nextHopIpAddress = some nh → nh ∉ peer) ∨
        (∃ q ∈ peer, pySplit r.addrPrefix = [q, "32"]))) ∧
      (ch = false → r' = r) ∧
      (ch = true → ∀ nh, r.nextHopIpAddress = some nh →
        r' = { r with nextHopIpAddress := me.get? (List.indexOf nh peer) })) ∧
    (∀ rt rs dirty, process_routes me peer rt = some (rs, dirty) →
      route_table_tick me peer rt =
        some (rs, if dirty then [Action.putRouteTable rs] else []) ∧
      (dirty = true ↔ ∃ r ∈ rt, ∃ r', process_route me peer r = some (r', true))) := by
  constructor
  · intro r
    by_cases ht : r.nextHopType = "VirtualAppliance"
    case neg =>
      refine ⟨r, false, process_route_not_va me peer r ht, ?_, fun _ => rfl, by simp⟩
      simp only [true_iff]
      exact Or.inl ht
    case pos =>
      cases hnh : r.nextHopIpAddress with
      | none =>
        refine ⟨r, false, process_route_no_nh me peer r ht hnh, ?_, fun _ => rfl, by simp⟩
        simp only [true_iff]
        exact Or.inr (Or.inl (fun nh h => Option.noConfusion h))
      | some nh =>
        by_cases hmem : nh ∈ peer
        case neg =>
          refine ⟨r, false, process_route_not_peer me peer r nh ht hnh hmem, ?_,
            fun _ => rfl, by simp⟩
          simp only [true_iff]
          refine Or.inr (Or.inl (fun nh' h => ?_))
          injection h with h'
          exact h' ▸ hmem
        case pos =>
          by_cases hskip : routeSkip32 peer r.addrPrefix = true
          case pos =>
            refine ⟨r, false, process_route_skip me peer r nh ht hnh hmem hskip, ?_,
              fun _ => rfl, by simp⟩
            simp only [true_iff]
            exact Or.inr (Or.inr ((routeSkip32_iff peer r.addrPrefix).mp hskip))
          case neg =>
            have hskipb : routeSkip32 peer r.addrPrefix = false := by simpa using hskip
            obtain ⟨hpr, -⟩ :=
              process_route_rewrite me peer r nh ht hnh hmem hskipb hlen
            refine ⟨{ r with nextHopIpAddress := me.get? (List.indexOf nh peer) },
              true, hpr, ?_, ?_, ?_⟩
            · simp only [Bool.true_eq_false, false_iff]
              rintro (h1 | h2 | h3)
              · exact h1 ht
              · exact h2 nh rfl hmem
              · exact hskip ((routeSkip32_iff peer r.addrPrefix).mpr h3)
            · intro h; exact absurd h (by simp)
            · intro _ nh' h
              injection h with h'
              rw [← h']
  · intro rt rs dirty h
    refine ⟨?_, process_routes_dirty_iff me peer rt rs dirty h⟩
    simp [route_table_tick, h]

/-- C7 amended witness: two routes — spec section 8, scenario 5 — the default
route is rewritten and the /32 route is skipped, with one PUT. -/
theorem C7_amended_route_rewrite_witness :
    (["10.0.1.5"] : List String).length ≤ (["10.0.1.4"] : List String).length ∧
    (∀ rt rs dirty,
      process_routes ["10.0.1.4"] ["10.0.1.5"] rt = some (rs, dirty) →
      route_table_tick ["10.0.1.4"] ["10.0.1.5"] rt =
        some (rs, if dirty then [Action.putRouteTable rs] else []) ∧
      (dirty = true ↔ ∃ r ∈ rt, ∃ r',
        process_route ["10.0.1.4"] ["10.0.1.5"] r = some (r', true))) :=
  ⟨by decide, (C7_amended_route_rewrite ["10.0.1.4"] ["10.0.1.5"] (by decide)).2⟩

/-! ### Public-IP reconciler (azure_had.py lines 456-551) -/

/-- `non_cp_nat_rules` (azure_had.py lines 469-470): ids of the LB inbound NAT
rules whose name does not start with `checkpoint-`; rules are absent
(`lbRules = none`) when no `lbName` is configured or the LB GET returns 404,
in which case the set stays empty. -/
def non_cp_nat_rules (lbRules : Option (List NatRule)) : List String :=
  match lbRules with
  | some rules => (rules.filter (fun r => !(startsWithB r.name "checkpoint-"))).map
      (fun r => r.id)
  | none => []

/-- Lower-case a list of rule ids (azure_had.py lines 517-519). -/
def lowerIds (l : List String) : List String := l.map lowerStr

/-- Python `set.issubset` on id lists. -/
def subsetIds (a b : List String) : Bool := a.all (fun x => b.contains x)

/-- Python `set.intersection` nonemptiness on id lists. -/
def intersectsIds (a b : List String) : Bool := a.any (fun x => b.contains x)

/-- Python set union on id lists (order-insensitive set modeled as a
duplicate-free append). -/
def unionIds (a b : List String) : List String := a ++ b.filter (fun x => !(a.contains x))

/-- Python `r['id'].split('/')[-1]` (azure_had.py line 534). -/
def lastSegment (s : String) : String := (pySplit s).getLastD ""

/-- Replace the first element of a list (mutation of `ipConfigurations[0]`). -/
def setHead (l : List IpConf) (x : IpConf) : List IpConf :=
  match l with
  | [] => [x]
  | _ :: t => x :: t

/-- `set_public_address` (azure_had.py lines 456-551) with the cloud GETs
resolved: `lbRules` the LB's inbound NAT rules (none ⇒ absent),
`publicIpPresent` whether the cluster public IP GET succeeded (404 ⇒ absent),
and the two primary NICs. Returns `none` on an uncaught exception (empty
`ipConfigurations`), else the PUT actions and the work-remains flag. -/
def set_public_address (baseId clusterName : String) (lbRules : Option (List NatRule))
    (publicIpPresent : Bool) (my_nic peer_nic : Nic) : Option (List Action × Bool) :=
  let non_cp_raw := non_cp_nat_rules lbRules
  let (rdyM, aM) := is_resource_ready my_nic
  if !rdyM then some (aM, true)
  else
    match my_nic.ipConfigurations.head? with
    | none => none
    | some my0 =>
      let my_raw := my0.props.loadBalancerInboundNatRules
      let (rdyP, aP) := is_resource_ready peer_nic
      if !rdyP then some (aM ++ aP, true)
      else
        match peer_nic.ipConfigurations.head? with
        | none => none
        | some peer0 =>
          let peer_raw := peer0.props.loadBalancerInboundNatRules
          let public_ip_id := baseId ++ "Microsoft.Network/publicIPAddresses/" ++ clusterName
          let non_cp := lowerIds non_cp_raw
          let myr := lowerIds my_raw
          let peerr := lowerIds peer_raw
          if (!publicIpPresent || my0.props.publicIPAddress.isSome) &&
              subsetIds non_cp myr then
            some ([], false)
          else if peer0.props.publicIPAddress.isSome || intersectsIds non_cp peerr then
            let peer0' := { peer0 with props :=
              { peer0.props with
                publicIPAddress := none,
                loadBalancerInboundNatRules :=
                  peer_raw.filter (fun i => startsWithB (lastSegment i) "checkpoint-") } }
            some ([Action.putPeerNic
              { peer_nic with ipConfigurations := setHead peer_nic.ipConfigurations peer0' }],
              true)
          else
            let my0' := { my0 with props :=
              { my0.props with
                publicIPAddress :=
                  if publicIpPresent then some public_ip_id else my0.props.publicIPAddress,
                loadBalancerInboundNatRules := unionIds myr non_cp } }
            some ([Action.putMyNic
              { my_nic with ipConfigurations := setHead my_nic.ipConfigurations my0' }],
              true)

theorem subsetIds_iff (a b : List String) :
    subsetIds a b = true ↔ ∀ x ∈ a, x ∈ b := by
  simp [subsetIds]

theorem public_done_guard_iff (p : Bool) (o : Option String) (a b : List String) :
    ((!p || o.isSome) && subsetIds a b) = true ↔
      ((p = false ∨ o.isSome = true) ∧ ∀ x ∈ a, x ∈ b) := by
  rw [Bool.and_eq_true, Bool.or_eq_true, Bool.not_eq_true', subsetIds_iff]

/-- C9: with both primary NICs ready, `set_public_address` performs no PUT and
reports no work remaining exactly when (the cluster public IP is absent OR my
first ipConfiguration already carries a `publicIPAddress`) AND every
lower-cased non-`checkpoint-` LB NAT-rule id is among my first
ipConfiguration's lower-cased NAT-rule ids. -/
theorem C9_public_address_done_iff (baseId clusterName : String)
    (lbRules : Option (List NatRule)) (publicIpPresent : Bool) (my_nic peer_nic : Nic)
    (my0 peer0 : IpConf)
    (hm : my_nic.provisioningState = "Succeeded")
    (hp : peer_nic.provisioningState = "Succeeded")
    (hm0 : my_nic.ipConfigurations.head? = some my0)
    (hp0 : peer_nic.ipConfigurations.head? = some peer0) :
    ∀ acts flag,
      set_public_address baseId clusterName lbRules publicIpPresent my_nic peer_nic =
        some (acts, flag) →
      ((acts = [] ∧ flag = false) ↔
        ((publicIpPresent = false ∨ my0.props.publicIPAddress.isSome = true) ∧
         ∀ x ∈ lowerIds (non_cp_nat_rules lbRules),
           x ∈ lowerIds my0.props.loadBalancerInboundNatRules)) := by
  intro acts flag h
  have hrm : is_resource_ready my_nic = (true, []) := by simp [is_resource_ready, hm]
  have hrp : is_resource_ready peer_nic = (true, []) := by simp [is_resource_ready, hp]
  by_cases hg : ((!publicIpPresent || my0.props.publicIPAddress.isSome) &&
      subsetIds (lowerIds (non_cp_nat_rules lbRules))
        (lowerIds my0.props.loadBalancerInboundNatRules)) = true
  · obtain ⟨rfl, rfl⟩ : acts = [] ∧ flag = false := by
      simp [set_public_address, hrm, hrp, hm0, hp0, hg] at h
      exact h
    exact iff_of_true ⟨rfl, rfl⟩ ((public_done_guard_iff _ _ _ _).mp hg)
  · have hbf : ((!publicIpPresent || my0.props.publicIPAddress.isSome) &&
        subsetIds (lowerIds (non_cp_nat_rules lbRules))
          (lowerIds my0.props.loadBalancerInboundNatRules)) = false := by
      simpa using hg
    refine iff_of_false ?_ (fun hr => hg ((public_done_guard_iff _ _ _ _).mpr hr))
    rintro ⟨hae, hfl⟩
    by_cases hg2 : (peer0.props.publicIPAddress.isSome ||
        intersectsIds (lowerIds (non_cp_nat_rules lbRules))
          (lowerIds peer0.props.loadBalancerInboundNatRules)) = true
    · simp [set_public_address, hrm, hrp, hm0, hp0, hbf, hg2] at h
      simp [h.2] at hfl
    · have hg2f : (peer0.props.publicIPAddress.isSome ||
          intersectsIds (lowerIds (non_cp_nat_rules lbRules))
            (lowerIds peer0.props.loadBalancerInboundNatRules)) = false := by
        simpa using hg2
      simp [set_public_address, hrm, hrp, hm0, hp0, hbf, hg2f] at h
      simp [h.2] at hfl

/-- LB inbound NAT rules for the C9 witness: one user rule, one checkpoint
rule. -/
def lbRules9 : List NatRule :=
  [{ id := "/lb/inboundNatRules/cluster-vip-ssh", name := "cluster-vip-ssh" },
   { id := "/lb/inboundNatRules/checkpoint-internal", name := "checkpoint-internal" }]

/-- My primary ipConfiguration, already converged. -/
def my9c0 : IpConf :=
  { name := "ipconfig1",
    props := { primary := true, publicIPAddress := some "/pub/cluster-ip",
               loadBalancerInboundNatRules := ["/lb/inboundNatRules/cluster-vip-ssh"] } }

/-- Peer primary ipConfiguration, empty. -/
def peer9c0 : IpConf := { name := "ipconfig1" }

/-- My primary NIC for the C9 witness. -/
def my9 : Nic := { id := "my-primary-nic", ipConfigurations := [my9c0] }

/-- Peer primary NIC for the C9 witness. -/
def peer9 : Nic := { id := "peer-primary-nic", ipConfigurations := [peer9c0] }

/-- C9 witness: an already-converged configuration is recognised as done. -/
theorem C9_public_address_done_iff_witness :
    set_public_address "" "cluster" (some lbRules9) true my9 peer9 = some ([], false) ∧
    ((([] : List Action) = [] ∧ (false : Bool) = false) ↔
      (((true : Bool) = false ∨ my9c0.props.publicIPAddress.isSome = true) ∧
       ∀ x ∈ lowerIds (non_cp_nat_rules (some lbRules9)),
         x ∈ lowerIds my9c0.props.loadBalancerInboundNatRules)) :=
  ⟨by decide,
   C9_public_address_done_iff "" "cluster" (some lbRules9) true my9 peer9 my9c0 peer9c0
     rfl rfl rfl rfl [] false (by decide)⟩

/-! ### Event loop (azure_had.py lines 1016-1037) -/

/-- A member of the `events` set in `Server.run`: received datagrams are
Python 3 `bytes` objects, while the injected `'CHANGED'` tag is a `str`; in
Python 3 a `bytes` value never compares equal to a `str`. -/
inductive Ev where
  | bytesOf (s : String)
  | strOf (s : String)
deriving DecidableEq

/-- One tick of `Server.run` (azure_had.py lines 1019-1037): the drain loop
always terminates through the `EAGAIN`/`EWOULDBLOCK` handler, which adds the
`str` `'CHANGED'`; then the handlers `[('RECONF', reconf), ('CHANGED', poll)]`
run in order for each tag found in the set, and the loop breaks when `'STOP'`
is in the set. Returns the handler tags run, in order, and whether the loop
breaks. -/
def run_tick (drained : List String) : List String × Bool :=
  let events : List Ev := drained.map Ev.bytesOf ++ [Ev.strOf "CHANGED"]
  let handlers : List String := ["RECONF", "CHANGED"]
  (handlers.filter (fun h => events.contains (Ev.strOf h)),
   events.contains (Ev.strOf "STOP"))

/-- C3 evaluation at the failing input: a tick that drains datagrams `STOP`
and `RECONF` runs only `poll` (from the injected `'CHANGED'` `str`) and does
NOT break the loop — the `str` tags `'RECONF'`/`'STOP'` never compare equal
to the `bytes` payloads, so `reconf` is never triggered by a datagram and
`STOP` never terminates the loop. -/
theorem C3_code_bug_bytes_vs_str_tags :
    run_tick ["STOP", "RECONF"] = (["CHANGED"], false) ∧
    run_tick ["STOP"] = (["CHANGED"], false) ∧
    run_tick ["RECONF"] = (["CHANGED"], false) := by
  exact ⟨by decide, by decide, by decide⟩

/-! ### Peer-name derivation in `reconf` (azure_had.py lines 282-287) -/

/-- The `peername` computation of `reconf`: keep a configured `peername`;
otherwise derive it from the hostname — drop the last character, then append
`'2'` if the hostname ends with `'1'`, else append `'1'`. Python
`hostname.endswith('1')` is the last-character test on the data. -/
def reconf_peername (cfg_peername : Option String) (hostname : String) : String :=
  match cfg_peername with
  | some p => p
  | none =>
    if hostname.data.getLastD ' ' == '1' then dropLastStr hostname ++ "2"
    else dropLastStr hostname ++ "1"

/-- C10: when the configuration has no `peername` key, the peer name is the
hostname with its last character dropped and `'2'` appended when that last
character is `'1'`, `'1'` appended otherwise — for ANY last character,
digit or not. -/
theorem C10_peername_derivation (s : String) (c : Char) :
    (c ≠ '1' → reconf_peername none (s.push c) = s ++ "1") ∧
    reconf_peername none (s.push '1') = s ++ "2" := by
  have hlast : ∀ d : Char, (s.push d).data.getLastD ' ' = d := by
    intro d
    show (s.data ++ [d]).getLastD ' ' = d
    simp
  have hdrop : ∀ d : Char, dropLastStr (s.push d) = s := by
    intro d
    show String.mk (s.data ++ [d]).dropLast = s
    rw [List.dropLast_concat]
  constructor
  · intro hc
    simp [reconf_peername, hlast, hdrop, hc]
  · simp [reconf_peername, hlast, hdrop]

/-- C10 witness: a hostname ending in a non-digit and one ending in `'1'`. -/
theorem C10_peername_derivation_witness :
    ('x' ≠ '1' ∧ reconf_peername none ("gateway".push 'x') = "gateway" ++ "1") ∧
    reconf_peername none ("member".push '1') = "member" ++ "2" :=
  ⟨⟨by decide, (C10_peername_derivation "gateway" 'x').1 (by decide)⟩,
   (C10_peername_derivation "member" '1').2⟩
